import Mathlib

/-!
Verification development for the LangGraph agent blueprint (`agent_blueprint.py`).

The file shallowly embeds the four agent patterns of the source — ReAct,
Plan-Execute, Self-Reflection and Adaptive Multi-Agent — as pure Lean
functions over explicit state records, together with fuel-based executions of
the compiled graphs, and proves properties of the routing and reducer logic.

Modelling conventions:
- A LangChain message is a record with a role, a content string and a list of
  tool-call names; `hasattr(m, "tool_calls") and m.tool_calls` is modelled as
  the tool-call list being nonempty (human/tool messages carry an empty list).
- The reasoning oracle (the `ChatAnthropic` model) is an external collaborator:
  each node that calls it receives its response as an explicit argument, and
  run functions take the sequence of responses as a function argument.
  Responses of `llm.invoke` (the model without tools bound) never carry
  tool calls; responses of `llm_with_tools.invoke` may.
- Python floats used for quality scores are modelled as rationals (ℚ).
- A node's returned update dict is a record of `Option` fields (`none` means
  the key is absent from the dict); the LangGraph reducer is an explicit
  function applying `operator.add` (append) to `messages` and
  last-value-wins (replace) to every other field, as declared by the
  `TypedDict` annotations in the source.
-/

/-- One conversation message: role (`"system"`, `"user"`, `"assistant"`,
`"tool"`), content, and the names of any tool-invocation requests attached to
it. An empty `tool_calls` list models a message without pending tool calls. -/
structure Message where
  role : String
  content : String
  tool_calls : List String
deriving DecidableEq, Repr

/-- Models `hasattr(messages[-1], "tool_calls") and messages[-1].tool_calls`.
In the source `messages[-1]` faults on an empty history; every reachable state
has a nonempty history, and we return `false` on the empty list. -/
def lastHasToolCalls (ms : List Message) : Bool :=
  match ms.getLast? with
  | some m => !m.tool_calls.isEmpty
  | none => false

theorem lastHasToolCalls_append (ms : List Message) (m : Message) :
    lastHasToolCalls (ms ++ [m]) = !m.tool_calls.isEmpty := by
  simp [lastHasToolCalls]

/-- The user query submitted in the demo driver (`demo_agents`). -/
def initialQuery : Message :=
  { role := "user", content := "Should I invest in AAPL? Analyze the stock.", tool_calls := [] }

namespace ReAct

/-- `ReActState` (source lines 142-146): `messages` is annotated with
`operator.add` (append merge); `iteration` and `max_iterations` are plain
fields (replace merge). -/
structure State where
  messages : List Message
  iteration : Nat
  max_iterations : Nat
deriving DecidableEq, Repr

/-- An update dict returned by a ReAct node: `none` means the key is absent. -/
structure Update where
  messages : Option (List Message) := none
  iteration : Option Nat := none
  max_iterations : Option Nat := none
deriving DecidableEq, Repr

/-- The LangGraph reducer for `ReActState`: `messages` merges by appending
(`operator.add`), the other fields are replaced when present and carried over
when absent. -/
def applyUpdate (s : State) (p : Update) : State :=
  { messages := s.messages ++ p.messages.getD [],
    iteration := p.iteration.getD s.iteration,
    max_iterations := p.max_iterations.getD s.max_iterations }

/-- `reasoning_node` (source lines 155-169): calls `llm_with_tools` on the
history and returns `{"messages": [response], "iteration": iteration + 1}`.
The oracle response is the explicit argument `resp`. -/
def reasoning_node (resp : Message) (s : State) : Update :=
  { messages := some [resp], iteration := some (s.iteration + 1) }

/-- `should_continue` (source lines 171-184): first checks
`iteration >= max_iterations` (returning `"end"`), then pending tool calls
(returning `"tools"`), else `"end"`. -/
def should_continue (s : State) : String :=
  if s.iteration ≥ s.max_iterations then "end"
  else if lastHasToolCalls s.messages then "tools"
  else "end"

/-- Initial ReAct state used by the demo driver: the query message,
`iteration = 0` and the given `max_iterations`. -/
def initialState (maxIt : Nat) : State :=
  { messages := [initialQuery], iteration := 0, max_iterations := maxIt }

/-- Fuel-bounded execution of the compiled ReAct graph
(`create_react_agent`, source lines 186-196), starting at the `reasoning`
node: run `reasoning`, then follow `should_continue`; `"tools"` leads to the
tool node (whose results are the messages `tm`) and back to `reasoning`
(edge `tools -> reasoning`), anything else ends the run. `g i` is the oracle
response to the reasoning call made with `iteration = i`. -/
def run (g tm : Nat → Message) : Nat → State → State
  | 0, s => s
  | fuel + 1, s =>
    let s1 := applyUpdate s (reasoning_node (g s.iteration) s)
    if should_continue s1 = "tools" then
      run g tm fuel (applyUpdate s1 { messages := some [tm s1.iteration] })
    else s1

end ReAct

/-- An oracle stub whose every response requests a tool invocation. -/
def alwaysToolCall : Nat → Message :=
  fun _ => { role := "assistant", content := "Let me look that up.",
             tool_calls := ["get_stock_price"] }

/-- A tool-result stub: tool messages never carry tool calls. -/
def toolResult : Nat → Message :=
  fun _ => { role := "tool", content := "price data", tool_calls := [] }

/-- The ReAct state reached after the third reasoning execution when every
oracle response carries a tool call and `max_iterations = 3`. -/
def reactPendingState : ReAct.State :=
  ReAct.run alwaysToolCall toolResult 3 (ReAct.initialState 3)

/-- Claim C2, counterexample. The claim states that the ReAct router ends the
run exactly when no tool-invocation request is pending (either with the
counter at the maximum or with a plain answer), and otherwise continues to the
tools node. The source checks the iteration limit before the tool-call check,
so the reachable state after the third reasoning execution with
`max_iterations = 3` and an oracle that always requests tools — a state whose
last message does carry a pending tool call — is routed to `"end"`, not to
`"tools"` as the claim requires. -/
theorem c2_counterexample :
    lastHasToolCalls reactPendingState.messages = true ∧
    reactPendingState.iteration = reactPendingState.max_iterations ∧
    ReAct.should_continue reactPendingState = "end" ∧
    ReAct.should_continue reactPendingState ≠ "tools" := by
  refine ⟨by decide, by decide, by decide, by decide⟩

/-- Claim C2, amended. After the reasoning node runs, the router ends the run
exactly when the iteration counter has reached the caller-supplied maximum
(regardless of any pending tool-invocation request) or when no
tool-invocation request is pending; in every other case — a pending tool
request with the counter strictly below the maximum — it continues to the
tools node. -/
theorem c2_react_router_amended (s : ReAct.State) :
    (ReAct.should_continue s = "end" ↔
      (s.max_iterations ≤ s.iteration ∨ lastHasToolCalls s.messages = false)) ∧
    (ReAct.should_continue s = "tools" ↔
      (s.iteration < s.max_iterations ∧ lastHasToolCalls s.messages = true)) := by
  unfold ReAct.should_continue
  by_cases h1 : s.iteration ≥ s.max_iterations
  · simp [h1]
  · cases h2 : lastHasToolCalls s.messages
    · simp [h1, h2]
    · simp [h1, h2]
      omega

/-- Claim C8. Applying an empty update dict to a `ReActState` returns the
state unchanged; every field absent from the update is carried over
unchanged; and each field present in the update is merged by its declared
policy — append (`operator.add`) for the message sequence, replace for
`iteration` and `max_iterations`. -/
theorem c8_reducer_merge (s : ReAct.State) (p : ReAct.Update) :
    ReAct.applyUpdate s {} = s ∧
    (p.messages = none → (ReAct.applyUpdate s p).messages = s.messages) ∧
    (p.iteration = none → (ReAct.applyUpdate s p).iteration = s.iteration) ∧
    (p.max_iterations = none →
      (ReAct.applyUpdate s p).max_iterations = s.max_iterations) ∧
    (∀ ms, p.messages = some ms →
      (ReAct.applyUpdate s p).messages = s.messages ++ ms) ∧
    (∀ n, p.iteration = some n → (ReAct.applyUpdate s p).iteration = n) ∧
    (∀ n, p.max_iterations = some n →
      (ReAct.applyUpdate s p).max_iterations = n) := by
  refine ⟨by simp [ReAct.applyUpdate], ?_, ?_, ?_, ?_, ?_, ?_⟩ <;>
    intros <;> simp_all [ReAct.applyUpdate]

/-- A sample update dict naming `messages` and `iteration` but not
`max_iterations`. -/
def sampleUpdate : ReAct.Update :=
  { messages := some [toolResult 0], iteration := some 2 }

/-- Witness for C8 at concrete inputs: the empty update is a no-op on the
initial demo state, the field absent from `sampleUpdate` is carried over, and
the fields present in it are merged by their declared policies. -/
theorem c8_reducer_merge_witness :
    ReAct.applyUpdate (ReAct.initialState 3) {} = ReAct.initialState 3 ∧
    (ReAct.applyUpdate (ReAct.initialState 3) sampleUpdate).max_iterations = 3 ∧
    (ReAct.applyUpdate (ReAct.initialState 3) sampleUpdate).messages =
      [initialQuery] ++ [toolResult 0] ∧
    (ReAct.applyUpdate (ReAct.initialState 3) sampleUpdate).iteration = 2 := by
  obtain ⟨h1, h2, h3, h4, h5, h6, h7⟩ :=
    c8_reducer_merge (ReAct.initialState 3) sampleUpdate
  exact ⟨h1, h4 rfl, h5 [toolResult 0] rfl, h6 2 rfl⟩

/-- Worker for `charSplitOn`: `acc` holds the current chunk reversed and
`skip` the number of separator characters still to swallow after a match. -/
def splitOnGo (sep : List Char) : List Char → List Char → Nat → List (List Char)
  | [], acc, _ => [acc.reverse]
  | _ :: cs, acc, skip + 1 => splitOnGo sep cs acc skip
  | c :: cs, acc, 0 =>
    if sep.isPrefixOf (c :: cs) then
      acc.reverse :: splitOnGo sep cs [] (sep.length - 1)
    else splitOnGo sep cs (c :: acc) 0

/-- Python `str.split(sep)` for a nonempty separator, on character lists:
splits at every non-overlapping occurrence of `sep`, left to right, keeping
empty chunks. (Character lists rather than `String.splitOn` so that concrete
runs reduce inside the kernel.) -/
def charSplitOn (sep cs : List Char) : List (List Char) :=
  splitOnGo sep cs [] 0

/-- Python `str.strip()` on character lists: removes whitespace from both
ends. -/
def charTrim (cs : List Char) : List Char :=
  ((cs.dropWhile Char.isWhitespace).reverse.dropWhile Char.isWhitespace).reverse

/-- Numeric value of a list of decimal digit characters, most significant
first; the empty list has value 0. -/
def digitsVal (cs : List Char) : Nat :=
  cs.foldl (fun n c => 10 * n + (c.toNat - 48)) 0

/-- Parses a nonempty list consisting only of decimal digits. -/
def allDigits? (cs : List Char) : Option Nat :=
  if !cs.isEmpty && cs.all Char.isDigit then some (digitsVal cs) else none

/-- Strips a leading sign character, returning the sign as `1` or `-1`. -/
def splitSign : List Char → Int × List Char
  | '+' :: cs => (1, cs)
  | '-' :: cs => (-1, cs)
  | cs => (1, cs)

/-- Mantissa of a decimal literal: digits optionally followed by a decimal
point and further digits, with at least one digit overall. Returns the digit
string's value together with the number of fractional digits, so the
mantissa's value is the first component divided by ten to the second. -/
def mantissaDigits? (cs : List Char) : Option (Nat × Nat) :=
  let ip := cs.takeWhile Char.isDigit
  let rest := cs.dropWhile Char.isDigit
  match rest with
  | [] => if ip.isEmpty then none else some (digitsVal ip, 0)
  | '.' :: fp =>
    if fp.all Char.isDigit && (!ip.isEmpty || !fp.isEmpty) then
      some (digitsVal (ip ++ fp), fp.length)
    else none
  | _ => none

/-- Models Python `float(s)` on finite decimal literals: optional sign,
digits with an optional decimal point, optional decimal exponent. The
special forms `inf`/`nan` (which have no rational value) and digit-group
underscores are outside the model; none of the oracle score formats under
analysis produce them. The value is assembled with `mkRat` over integer
arithmetic (rather than rational `+`/`*`/`/`, which Batteries keeps
irreducible) so that concrete parses reduce inside the kernel. -/
def parseFloat? (chars : List Char) : Option ℚ :=
  let (sgn, cs) := splitSign chars
  let mant := cs.takeWhile (fun ch => ch != 'e' && ch != 'E')
  let rest := cs.dropWhile (fun ch => ch != 'e' && ch != 'E')
  match rest with
  | [] => (mantissaDigits? mant).map (fun md => mkRat (sgn * (md.1 : Int)) (10 ^ md.2))
  | _ :: ex =>
    let (esgn, eds) := splitSign ex
    match mantissaDigits? mant, allDigits? eds with
    | some md, some e =>
      if 0 ≤ esgn then some (mkRat (sgn * (md.1 * 10 ^ e : Nat)) (10 ^ md.2))
      else some (mkRat (sgn * (md.1 : Int)) (10 ^ (md.2 + e)))
    | _, _ => none

/-- The score-extraction step of the Reflection critic (source lines
377-385): guarded by `"SCORE:" in content` (equivalently, splitting on
`"SCORE:"` yields at least two parts), the source evaluates
`float(content.split("SCORE:")[1].split("/")[0].strip())`; `none` models
every case in which the source keeps its default score. -/
def extractScore (content : String) : Option ℚ :=
  let parts := charSplitOn "SCORE:".toList content.toList
  if 2 ≤ parts.length then
    parseFloat? (charTrim ((charSplitOn ['/'] (parts.getD 1 [])).headD []))
  else none

namespace Reflection

/-- `ReflectionState` (source lines 317-324): `messages` appends
(`operator.add`); `draft`, `critique`, `iteration`, `max_iterations` and
`quality_score` replace. -/
structure State where
  messages : List Message
  draft : String
  critique : String
  iteration : Nat
  max_iterations : Nat
  quality_score : ℚ
deriving DecidableEq, Repr

/-- An update dict returned by a Reflection node; `none` = key absent. -/
structure Update where
  messages : Option (List Message) := none
  draft : Option String := none
  critique : Option String := none
  iteration : Option Nat := none
  max_iterations : Option Nat := none
  quality_score : Option ℚ := none
deriving DecidableEq, Repr

/-- The LangGraph reducer for `ReflectionState`. -/
def applyUpdate (s : State) (p : Update) : State :=
  { messages := s.messages ++ p.messages.getD [],
    draft := p.draft.getD s.draft,
    critique := p.critique.getD s.critique,
    iteration := p.iteration.getD s.iteration,
    max_iterations := p.max_iterations.getD s.max_iterations,
    quality_score := p.quality_score.getD s.quality_score }

/-- The default quality score kept when no score can be parsed from the
critique text (source line 379: `score = 7.5  # default`). Written
`mkRat 15 2` — the same rational as `7.5` (see
`Reflection.defaultQualityScore_eq`) in a form the kernel can evaluate. -/
def defaultQualityScore : ℚ := mkRat 15 2

/-- The quality threshold of `should_continue` (source line 402: the literal
`8.5`), written `mkRat 17 2`; see `Reflection.qualityThreshold_eq`. -/
def qualityThreshold : ℚ := mkRat 17 2

/-- `generator_node` (source lines 333-347): calls `llm_with_tools` and
returns `{"messages": [response], "iteration": iteration + 1}`. -/
def generator_node (resp : Message) (s : State) : Update :=
  { messages := some [resp], iteration := some (s.iteration + 1) }

/-- `critic_node` (source lines 349-391): calls the plain `llm`, parses the
score out of the critique text with default `7.5`, and returns
`{"critique": content, "quality_score": score, "messages": [response]}`. -/
def critic_node (resp : Message) (s : State) : Update :=
  { messages := some [resp],
    critique := some resp.content,
    quality_score := some ((extractScore resp.content).getD defaultQualityScore) }

/-- `should_continue` (source lines 393-405): pending tool calls go to
`"tools"`; then `quality_score >= 8.5 or iteration >= max_iterations` ends
the run; otherwise `"generate"` (which the edge map sends to the critic). -/
def should_continue (s : State) : String :=
  if lastHasToolCalls s.messages then "tools"
  else if s.quality_score ≥ qualityThreshold ∨ s.iteration ≥ s.max_iterations then "end"
  else "generate"

/-- Initial Reflection state used by the demo driver. -/
def initialState (maxIt : Nat) : State :=
  { messages := [initialQuery], draft := "", critique := "", iteration := 0,
    max_iterations := maxIt, quality_score := 0 }

end Reflection

theorem Reflection.defaultQualityScore_eq : Reflection.defaultQualityScore = 7.5 := by
  norm_num [Reflection.defaultQualityScore, Rat.mkRat_eq_div]

theorem Reflection.qualityThreshold_eq : Reflection.qualityThreshold = 8.5 := by
  norm_num [Reflection.qualityThreshold, Rat.mkRat_eq_div]

theorem Reflection.applyUpdate_generator (r : Message) (s : Reflection.State) :
    Reflection.applyUpdate s (Reflection.generator_node r s) =
      { s with messages := s.messages ++ [r], iteration := s.iteration + 1 } := rfl

theorem Reflection.applyUpdate_critic (r : Message) (s : Reflection.State) :
    Reflection.applyUpdate s (Reflection.critic_node r s) =
      { s with
          messages := s.messages ++ [r], critique := r.content,
          quality_score := (extractScore r.content).getD Reflection.defaultQualityScore } := rfl

theorem Reflection.should_continue_eval (s : Reflection.State)
    (h1 : lastHasToolCalls s.messages = false) :
    Reflection.should_continue s =
      if s.quality_score ≥ Reflection.qualityThreshold ∨ s.iteration ≥ s.max_iterations
      then "end" else "generate" := by
  simp [Reflection.should_continue, h1]

/-- Nodes of the compiled Reflection graph. -/
inductive ReflNode
  | generator
  | critic
  | toolsN
deriving DecidableEq, Repr

/-- Bookkeeping for a Reflection run: the state, the number of generator and
critic executions so far, and whether END was reached. -/
structure ReflTrace where
  state : Reflection.State
  genCount : Nat
  critCount : Nat
  done : Bool
deriving DecidableEq, Repr

/-- Fuel-bounded execution of the compiled Reflection graph
(`create_reflection_agent`, source lines 407-423): from `generator`, the
conditional edge map `{"generate": "critic", "tools": "tools", "end": END}`
follows `should_continue`; `critic` and `tools` return to `generator`
unconditionally. `g i` and `c i` are the oracle responses to the i-th
generator resp. critic invocation; `tm i` is a tool-result message. -/
def reflRun (g c tm : Nat → Message) : Nat → ReflNode → ReflTrace → ReflTrace
  | 0, _, t => t
  | fuel + 1, ReflNode.generator, t =>
    let s1 := Reflection.applyUpdate t.state (Reflection.generator_node (g t.genCount) t.state)
    let t1 : ReflTrace := { t with state := s1, genCount := t.genCount + 1 }
    if Reflection.should_continue s1 = "tools" then reflRun g c tm fuel ReflNode.toolsN t1
    else if Reflection.should_continue s1 = "generate" then reflRun g c tm fuel ReflNode.critic t1
    else { t1 with done := true }
  | fuel + 1, ReflNode.critic, t =>
    let s1 := Reflection.applyUpdate t.state (Reflection.critic_node (c t.critCount) t.state)
    reflRun g c tm fuel ReflNode.generator { t with state := s1, critCount := t.critCount + 1 }
  | fuel + 1, ReflNode.toolsN, t =>
    reflRun g c tm fuel ReflNode.generator
      { t with state := Reflection.applyUpdate t.state { messages := some [tm t.state.iteration] } }

/-- Initial trace for a Reflection run with the demo initial state. -/
def reflInitTrace (maxIt : Nat) : ReflTrace :=
  { state := Reflection.initialState maxIt, genCount := 0, critCount := 0, done := false }

theorem reflRun_gen_end (g c tm : Nat → Message) (f : Nat) (t : ReflTrace)
    (h : Reflection.should_continue
      (Reflection.applyUpdate t.state (Reflection.generator_node (g t.genCount) t.state)) = "end") :
    reflRun g c tm (f + 1) ReflNode.generator t =
      { t with
          state := Reflection.applyUpdate t.state
            (Reflection.generator_node (g t.genCount) t.state),
          genCount := t.genCount + 1, done := true } := by
  simp only [reflRun, h]
  simp

theorem reflRun_gen_generate (g c tm : Nat → Message) (f : Nat) (t : ReflTrace)
    (h : Reflection.should_continue
      (Reflection.applyUpdate t.state (Reflection.generator_node (g t.genCount) t.state)) = "generate") :
    reflRun g c tm (f + 1) ReflNode.generator t =
      reflRun g c tm f ReflNode.critic
        { t with
            state := Reflection.applyUpdate t.state
              (Reflection.generator_node (g t.genCount) t.state),
            genCount := t.genCount + 1 } := by
  simp only [reflRun, h]
  simp

theorem reflRun_critic_eq (g c tm : Nat → Message) (f : Nat) (t : ReflTrace) :
    reflRun g c tm (f + 1) ReflNode.critic t =
      reflRun g c tm f ReflNode.generator
        { t with
            state := Reflection.applyUpdate t.state
              (Reflection.critic_node (c t.critCount) t.state),
            critCount := t.critCount + 1 } := rfl

/-- Loop bookkeeping for Reflection runs whose critic never clears the
quality threshold: starting at the generator with `n + 1` iterations left
before the cap, the run terminates with `n + 1` more generator executions
and `n` more critic executions, and the counter ends exactly at the cap. -/
theorem reflRun_below_threshold (g c tm : Nat → Message)
    (hg : ∀ i, (g i).tool_calls = [])
    (hc : ∀ i, (extractScore (c i).content).getD Reflection.defaultQualityScore <
      Reflection.qualityThreshold) :
    ∀ (n : Nat) (t : ReflTrace) (fuel : Nat),
      t.state.max_iterations = t.state.iteration + (n + 1) →
      t.state.quality_score < Reflection.qualityThreshold →
      2 * n + 3 ≤ fuel →
      (reflRun g c tm fuel ReflNode.generator t).done = true ∧
      (reflRun g c tm fuel ReflNode.generator t).genCount = t.genCount + (n + 1) ∧
      (reflRun g c tm fuel ReflNode.generator t).critCount = t.critCount + n ∧
      (reflRun g c tm fuel ReflNode.generator t).state.iteration = t.state.max_iterations ∧
      (reflRun g c tm fuel ReflNode.generator t).state.quality_score <
        Reflection.qualityThreshold := by
  intro n
  induction n with
  | zero =>
    intro t fuel hmax hq hfuel
    obtain ⟨f, rfl⟩ : ∃ f, fuel = f + 1 := ⟨fuel - 1, by omega⟩
    have hlast : lastHasToolCalls (t.state.messages ++ [g t.genCount]) = false := by
      rw [lastHasToolCalls_append, hg]
      rfl
    have hroute : Reflection.should_continue
        (Reflection.applyUpdate t.state (Reflection.generator_node (g t.genCount) t.state)) =
          "end" := by
      rw [Reflection.applyUpdate_generator,
        Reflection.should_continue_eval _ (by simpa using hlast)]
      exact if_pos (Or.inr (by dsimp only; omega))
    rw [reflRun_gen_end g c tm f t hroute, Reflection.applyUpdate_generator]
    refine ⟨rfl, rfl, rfl, by dsimp only; omega, by dsimp only; exact hq⟩
  | succ n ih =>
    intro t fuel hmax hq hfuel
    obtain ⟨f, rfl⟩ : ∃ f, fuel = f + 2 := ⟨fuel - 2, by omega⟩
    have hlast : lastHasToolCalls (t.state.messages ++ [g t.genCount]) = false := by
      rw [lastHasToolCalls_append, hg]
      rfl
    have hroute : Reflection.should_continue
        (Reflection.applyUpdate t.state (Reflection.generator_node (g t.genCount) t.state)) =
          "generate" := by
      rw [Reflection.applyUpdate_generator,
        Reflection.should_continue_eval _ (by simpa using hlast)]
      refine if_neg ?_
      dsimp only
      push_neg
      exact ⟨hq, by omega⟩
    rw [show f + 2 = (f + 1) + 1 from rfl,
      reflRun_gen_generate g c tm (f + 1) t hroute, reflRun_critic_eq]
    have := ih
      { state := Reflection.applyUpdate
          (Reflection.applyUpdate t.state (Reflection.generator_node (g t.genCount) t.state))
          (Reflection.critic_node (c t.critCount)
            (Reflection.applyUpdate t.state (Reflection.generator_node (g t.genCount) t.state))),
        genCount := t.genCount + 1, critCount := t.critCount + 1, done := t.done }
      f
      (by
        rw [Reflection.applyUpdate_critic, Reflection.applyUpdate_generator]
        dsimp only
        omega)
      (by
        rw [Reflection.applyUpdate_critic]
        dsimp only
        exact hc t.critCount)
      (by omega)
    obtain ⟨h1, h2, h3, h4, h5⟩ := this
    refine ⟨h1, ?_, ?_, ?_, h5⟩
    · rw [h2]
      dsimp only
      omega
    · rw [h3]
      dsimp only
      omega
    · rw [h4]
      rw [Reflection.applyUpdate_critic, Reflection.applyUpdate_generator]

theorem reflRun_gen_generate_of (g c tm : Nat → Message) (f : Nat) (t : ReflTrace)
    (hplain : (g t.genCount).tool_calls = [])
    (hq : t.state.quality_score < Reflection.qualityThreshold)
    (hit : t.state.iteration + 1 < t.state.max_iterations) :
    reflRun g c tm (f + 1) ReflNode.generator t =
      reflRun g c tm f ReflNode.critic
        { t with
            state := Reflection.applyUpdate t.state
              (Reflection.generator_node (g t.genCount) t.state),
            genCount := t.genCount + 1 } := by
  have hlast : lastHasToolCalls (t.state.messages ++ [g t.genCount]) = false := by
    rw [lastHasToolCalls_append, hplain]
    rfl
  apply reflRun_gen_generate
  rw [Reflection.applyUpdate_generator,
    Reflection.should_continue_eval _ (by simpa using hlast)]
  refine if_neg ?_
  dsimp only
  push_neg
  exact ⟨hq, hit⟩

theorem reflRun_gen_end_of_quality (g c tm : Nat → Message) (f : Nat) (t : ReflTrace)
    (hplain : (g t.genCount).tool_calls = [])
    (hq : Reflection.qualityThreshold ≤ t.state.quality_score) :
    reflRun g c tm (f + 1) ReflNode.generator t =
      { t with
          state := Reflection.applyUpdate t.state
            (Reflection.generator_node (g t.genCount) t.state),
          genCount := t.genCount + 1, done := true } := by
  have hlast : lastHasToolCalls (t.state.messages ++ [g t.genCount]) = false := by
    rw [lastHasToolCalls_append, hplain]
    rfl
  apply reflRun_gen_end
  rw [Reflection.applyUpdate_generator,
    Reflection.should_continue_eval _ (by simpa using hlast)]
  exact if_pos (Or.inl (by dsimp only; exact hq))

/-- Generator stub producing plain textual drafts (no tool calls). -/
def plainDraft : Nat → Message :=
  fun _ => { role := "assistant", content := "Draft stock analysis.", tool_calls := [] }

/-- Critic stub whose critique parses to quality score 9.0. -/
def critic90 : Nat → Message :=
  fun _ => { role := "assistant", content := "SCORE: 9.0/10 Excellent, complete analysis.",
             tool_calls := [] }

/-- Critic stub whose critique parses to quality score 5.0. -/
def critic50 : Nat → Message :=
  fun _ => { role := "assistant", content := "SCORE: 5.0/10 Needs substantial work.",
             tool_calls := [] }

/-- Critic stub whose critique contains no parseable score. -/
def unscoredCritic : Nat → Message :=
  fun _ => { role := "assistant", content := "Needs more depth and a clearer risk discussion.",
             tool_calls := [] }

/-- Claim C6. For every critique text from which no numeric quality score can
be parsed (no parseable `SCORE:` value), the critic node returns the fixed
neutral default `7.5` as the quality score — it never raises — together with
its normal critique and message fields, so the run continues through the
critic's unconditional edge back to the generator. -/
theorem c6_critic_default_score (resp : Message) (s : Reflection.State)
    (h : extractScore resp.content = none) :
    Reflection.critic_node resp s =
      { messages := some [resp], critique := some resp.content,
        quality_score := some Reflection.defaultQualityScore } ∧
    (Reflection.applyUpdate s (Reflection.critic_node resp s)).quality_score =
      Reflection.defaultQualityScore := by
  unfold Reflection.critic_node Reflection.applyUpdate
  rw [h]
  exact ⟨rfl, rfl⟩

/-- Witness for C6: on the concrete unscored critique, the critic node yields
exactly the default score `7.5`. -/
theorem c6_critic_default_score_witness :
    Reflection.critic_node (unscoredCritic 0) (Reflection.initialState 2) =
      { messages := some [unscoredCritic 0], critique := some (unscoredCritic 0).content,
        quality_score := some Reflection.defaultQualityScore } ∧
    (Reflection.applyUpdate (Reflection.initialState 2)
      (Reflection.critic_node (unscoredCritic 0) (Reflection.initialState 2))).quality_score =
        Reflection.defaultQualityScore :=
  c6_critic_default_score (unscoredCritic 0) (Reflection.initialState 2) (by decide)

/-- Claim C10. The default quality score assigned on parse failure (7.5) is
strictly below the quality termination threshold (8.5); therefore in every
run in which no critique yields a parseable score (the generator producing
plain drafts so that the loop actually cycles), the quality-based exit is
never taken and the run terminates exactly when the iteration counter
reaches `max_iterations`, its final quality score still below the
threshold. -/
theorem c10_default_below_threshold :
    Reflection.defaultQualityScore < Reflection.qualityThreshold ∧
    ∀ (g c tm : Nat → Message) (maxIt : Nat),
      (∀ i, (g i).tool_calls = []) →
      (∀ i, extractScore (c i).content = none) →
      1 ≤ maxIt →
      (reflRun g c tm (2 * maxIt + 2) ReflNode.generator (reflInitTrace maxIt)).done = true ∧
      (reflRun g c tm (2 * maxIt + 2) ReflNode.generator (reflInitTrace maxIt)).genCount =
        maxIt ∧
      (reflRun g c tm (2 * maxIt + 2) ReflNode.generator
        (reflInitTrace maxIt)).state.iteration = maxIt ∧
      (reflRun g c tm (2 * maxIt + 2) ReflNode.generator
        (reflInitTrace maxIt)).state.quality_score < Reflection.qualityThreshold := by
  refine ⟨by decide, ?_⟩
  intro g c tm maxIt hg hc hmax
  obtain ⟨n, rfl⟩ : ∃ n, maxIt = n + 1 := ⟨maxIt - 1, by omega⟩
  have h := reflRun_below_threshold g c tm hg
    (fun i => by rw [hc i]; decide)
    n (reflInitTrace (n + 1)) (2 * (n + 1) + 2)
    (by dsimp [reflInitTrace, Reflection.initialState]; omega)
    (by dsimp [reflInitTrace, Reflection.initialState]; decide)
    (by omega)
  obtain ⟨h1, h2, h3, h4, h5⟩ := h
  refine ⟨h1, ?_, ?_, h5⟩
  · rw [h2]
    dsimp [reflInitTrace]
    omega
  · rw [h4]
    dsimp [reflInitTrace, Reflection.initialState]

/-- Witness for C10: with the concrete unscored critic and plain generator,
`max_iterations = 2`, the run ends after exactly two generator executions
with the counter at the cap and a sub-threshold score. -/
theorem c10_default_below_threshold_witness :
    (reflRun plainDraft unscoredCritic toolResult (2 * 2 + 2) ReflNode.generator
      (reflInitTrace 2)).done = true ∧
    (reflRun plainDraft unscoredCritic toolResult (2 * 2 + 2) ReflNode.generator
      (reflInitTrace 2)).genCount = 2 ∧
    (reflRun plainDraft unscoredCritic toolResult (2 * 2 + 2) ReflNode.generator
      (reflInitTrace 2)).state.iteration = 2 ∧
    (reflRun plainDraft unscoredCritic toolResult (2 * 2 + 2) ReflNode.generator
      (reflInitTrace 2)).state.quality_score < Reflection.qualityThreshold :=
  c10_default_below_threshold.2 plainDraft unscoredCritic toolResult 2
    (fun _ => rfl) (fun _ => rfl) (by omega)

/-- Claim C3, counterexample. The claim asserts that a first critique of 9.0
ends the run after exactly one generate-then-critique cycle, and that an
always-5.0 critic ends it after exactly `max_iterations` such cycles. In the
source the critic's edge back to the generator is unconditional and the score
is only examined by the router that runs after the generator, so with
`max_iterations = 3`: the 9.0 run executes the generator twice around its
single critique (two generator executions, one critic execution), and the
5.0 run executes the generator three times but the critic only twice. Counted
by critic executions the 5.0 half fails (2 cycles, not 3); counted by
generator executions the 9.0 half fails (2 cycles, not 1). -/
theorem c3_counterexample :
    (reflRun plainDraft critic90 toolResult (2 * 3 + 2) ReflNode.generator
      (reflInitTrace 3)).done = true ∧
    (reflRun plainDraft critic90 toolResult (2 * 3 + 2) ReflNode.generator
      (reflInitTrace 3)).genCount = 2 ∧
    (reflRun plainDraft critic90 toolResult (2 * 3 + 2) ReflNode.generator
      (reflInitTrace 3)).critCount = 1 ∧
    (reflRun plainDraft critic50 toolResult (2 * 3 + 2) ReflNode.generator
      (reflInitTrace 3)).done = true ∧
    (reflRun plainDraft critic50 toolResult (2 * 3 + 2) ReflNode.generator
      (reflInitTrace 3)).genCount = 3 ∧
    (reflRun plainDraft critic50 toolResult (2 * 3 + 2) ReflNode.generator
      (reflInitTrace 3)).critCount = 2 := by
  refine ⟨by decide, by decide, by decide, by decide, by decide, by decide⟩

/-- Claim C3, amended. With a plain-draft generator stub: given a critic stub
whose first critique scores 9.0 and any `max_iterations ≥ 2`, the run
terminates after exactly one critique but two generator executions (the
passing score is only seen by the router after one further generation);
given a critic stub that always scores 5.0 and any `max_iterations ≥ 1`, the
run terminates after exactly `max_iterations` generator executions and
`max_iterations - 1` critic executions — in particular not before the
counter reaches the cap. -/
theorem c3_reflection_cycle_counts_amended (maxIt : Nat) :
    (2 ≤ maxIt →
      (reflRun plainDraft critic90 toolResult (2 * maxIt + 2) ReflNode.generator
        (reflInitTrace maxIt)).done = true ∧
      (reflRun plainDraft critic90 toolResult (2 * maxIt + 2) ReflNode.generator
        (reflInitTrace maxIt)).genCount = 2 ∧
      (reflRun plainDraft critic90 toolResult (2 * maxIt + 2) ReflNode.generator
        (reflInitTrace maxIt)).critCount = 1) ∧
    (1 ≤ maxIt →
      (reflRun plainDraft critic50 toolResult (2 * maxIt + 2) ReflNode.generator
        (reflInitTrace maxIt)).done = true ∧
      (reflRun plainDraft critic50 toolResult (2 * maxIt + 2) ReflNode.generator
        (reflInitTrace maxIt)).genCount = maxIt ∧
      (reflRun plainDraft critic50 toolResult (2 * maxIt + 2) ReflNode.generator
        (reflInitTrace maxIt)).critCount = maxIt - 1) := by
  constructor
  · intro hm
    obtain ⟨m, rfl⟩ : ∃ m, maxIt = m + 2 := ⟨maxIt - 2, by omega⟩
    have e1 : reflRun plainDraft critic90 toolResult (2 * (m + 2) + 2) ReflNode.generator
        (reflInitTrace (m + 2)) =
        reflRun plainDraft critic90 toolResult (2 * m + 5) ReflNode.critic
          { state :=
              { messages := [initialQuery, plainDraft 0], draft := "", critique := "",
                iteration := 1, max_iterations := m + 2, quality_score := 0 },
            genCount := 1, critCount := 0, done := false } :=
      reflRun_gen_generate_of _ _ _ _ _ rfl
        (by dsimp [reflInitTrace, Reflection.initialState]; decide)
        (by dsimp [reflInitTrace, Reflection.initialState]; omega)
    have e2 : reflRun plainDraft critic90 toolResult (2 * m + 5) ReflNode.critic
        { state :=
            { messages := [initialQuery, plainDraft 0], draft := "", critique := "",
              iteration := 1, max_iterations := m + 2, quality_score := 0 },
          genCount := 1, critCount := 0, done := false } =
        reflRun plainDraft critic90 toolResult (2 * m + 4) ReflNode.generator
          { state :=
              { messages := [initialQuery, plainDraft 0, critic90 0], draft := "",
                critique := (critic90 0).content, iteration := 1, max_iterations := m + 2,
                quality_score :=
                  (extractScore (critic90 0).content).getD Reflection.defaultQualityScore },
            genCount := 1, critCount := 1, done := false } :=
      reflRun_critic_eq _ _ _ _ _
    have e3 : reflRun plainDraft critic90 toolResult (2 * m + 4) ReflNode.generator
        { state :=
            { messages := [initialQuery, plainDraft 0, critic90 0], draft := "",
              critique := (critic90 0).content, iteration := 1, max_iterations := m + 2,
              quality_score :=
                (extractScore (critic90 0).content).getD Reflection.defaultQualityScore },
          genCount := 1, critCount := 1, done := false } =
        { state :=
            { messages := [initialQuery, plainDraft 0, critic90 0, plainDraft 1], draft := "",
              critique := (critic90 0).content, iteration := 2, max_iterations := m + 2,
              quality_score :=
                (extractScore (critic90 0).content).getD Reflection.defaultQualityScore },
          genCount := 2, critCount := 1, done := true } :=
      reflRun_gen_end_of_quality _ _ _ _ _ rfl (by dsimp only; decide)
    rw [e1.trans (e2.trans e3)]
    exact ⟨rfl, rfl, rfl⟩
  · intro hm
    obtain ⟨n, rfl⟩ : ∃ n, maxIt = n + 1 := ⟨maxIt - 1, by omega⟩
    have h := reflRun_below_threshold plainDraft critic50 toolResult (fun _ => rfl)
      (fun _ => by simp only [critic50]; decide) n (reflInitTrace (n + 1)) (2 * (n + 1) + 2)
      (by dsimp [reflInitTrace, Reflection.initialState]; omega)
      (by dsimp [reflInitTrace, Reflection.initialState]; decide)
      (by omega)
    obtain ⟨h1, h2, h3, h4, h5⟩ := h
    refine ⟨h1, ?_, ?_⟩
    · rw [h2]
      dsimp [reflInitTrace]
      omega
    · rw [h3]
      dsimp [reflInitTrace]
      omega

/-- Witness for C3 (amended) at `max_iterations = 3`, discharging both
hypotheses. -/
theorem c3_reflection_cycle_counts_amended_witness :
    ((reflRun plainDraft critic90 toolResult (2 * 3 + 2) ReflNode.generator
      (reflInitTrace 3)).done = true ∧
    (reflRun plainDraft critic90 toolResult (2 * 3 + 2) ReflNode.generator
      (reflInitTrace 3)).genCount = 2 ∧
    (reflRun plainDraft critic90 toolResult (2 * 3 + 2) ReflNode.generator
      (reflInitTrace 3)).critCount = 1) ∧
    ((reflRun plainDraft critic50 toolResult (2 * 3 + 2) ReflNode.generator
      (reflInitTrace 3)).done = true ∧
    (reflRun plainDraft critic50 toolResult (2 * 3 + 2) ReflNode.generator
      (reflInitTrace 3)).genCount = 3 ∧
    (reflRun plainDraft critic50 toolResult (2 * 3 + 2) ReflNode.generator
      (reflInitTrace 3)).critCount = 3 - 1) :=
  ⟨(c3_reflection_cycle_counts_amended 3).1 (by omega),
   (c3_reflection_cycle_counts_amended 3).2 (by omega)⟩

/-- Python list-comprehension plan parser of `planner_node` (source line 237):
`[line.strip() for line in plan_text.split('\n') if line.strip() and
line[0].isdigit()]` — keep the lines that are nonempty after stripping and
whose (unstripped) first character is a digit, each stripped. -/
def parsePlan (planText : String) : List String :=
  ((charSplitOn [Char.ofNat 10] planText.toList).filter
    (fun l => !(charTrim l).isEmpty && (l.headD ' ').isDigit)).map
    (fun l => String.mk (charTrim l))

namespace PlanExecute

/-- `PlanExecuteState` (source lines 203-209): `messages` appends
(`operator.add`); `plan`, `completed_steps`, `current_step` and `results`
replace. `results` is a string-keyed dict, modelled as an association list. -/
structure State where
  messages : List Message
  plan : List String
  completed_steps : List String
  current_step : Nat
  results : List (String × String)
deriving DecidableEq, Repr

/-- An update dict returned by a Plan-Execute node; `none` = key absent. -/
structure Update where
  messages : Option (List Message) := none
  plan : Option (List String) := none
  completed_steps : Option (List String) := none
  current_step : Option Nat := none
  results : Option (List (String × String)) := none
deriving DecidableEq, Repr

/-- The LangGraph reducer for `PlanExecuteState`. -/
def applyUpdate (s : State) (p : Update) : State :=
  { messages := s.messages ++ p.messages.getD [],
    plan := p.plan.getD s.plan,
    completed_steps := p.completed_steps.getD s.completed_steps,
    current_step := p.current_step.getD s.current_step,
    results := p.results.getD s.results }

/-- `planner_node` (source lines 218-244): calls the plain `llm`, parses the
plan out of the response text and returns
`{"plan": plan_steps, "current_step": 0, "results": {}, "messages": [...]}`. -/
def planner_node (resp : Message) (_s : State) : Update :=
  let plan_steps := parsePlan resp.content
  { plan := some plan_steps, current_step := some 0, results := some [],
    messages := some [{ role := "assistant",
                        content := "Created plan with " ++ toString plan_steps.length ++ " steps",
                        tool_calls := [] }] }

/-- The guard message emitted by `executor_node` when every step is done
(source line 251). -/
def allStepsCompletedMsg : Message :=
  { role := "assistant", content := "All steps completed", tool_calls := [] }

/-- `executor_node` (source lines 246-266): when `current_step >= len(plan)`
returns only the guard message; otherwise calls `llm_with_tools` on the
current step and returns
`{"messages": [response], "current_step": current_step + 1}`. -/
def executor_node (resp : Message) (s : State) : Update :=
  if s.current_step ≥ s.plan.length then
    { messages := some [allStepsCompletedMsg] }
  else
    { messages := some [resp], current_step := some (s.current_step + 1) }

/-- `should_continue` (source lines 268-281): pending tool calls go to
`"tools"`, then `current_step >= len(plan)` routes to `"synthesize"`,
otherwise `"execute"`. -/
def should_continue (s : State) : String :=
  if lastHasToolCalls s.messages then "tools"
  else if s.current_step ≥ s.plan.length then "synthesize"
  else "execute"

/-- `synthesizer_node` (source lines 283-290): calls the plain `llm` and
returns `{"messages": [response]}`. -/
def synthesizer_node (resp : Message) (_s : State) : Update :=
  { messages := some [resp] }

/-- Initial Plan-Execute state used by the demo driver. -/
def initialState : State :=
  { messages := [initialQuery], plan := [], completed_steps := [], current_step := 0,
    results := [] }

end PlanExecute

theorem PlanExecute.applyUpdate_executor_step (r : Message) (s : PlanExecute.State)
    (h : s.current_step < s.plan.length) :
    PlanExecute.applyUpdate s (PlanExecute.executor_node r s) =
      { s with
          messages := s.messages ++ [r], current_step := s.current_step + 1 } := by
  unfold PlanExecute.executor_node
  rw [if_neg (by omega)]
  rfl

theorem PlanExecute.applyUpdate_executor_guard (r : Message) (s : PlanExecute.State)
    (h : s.plan.length ≤ s.current_step) :
    PlanExecute.applyUpdate s (PlanExecute.executor_node r s) =
      { s with messages := s.messages ++ [PlanExecute.allStepsCompletedMsg] } := by
  unfold PlanExecute.executor_node
  rw [if_pos (by omega)]
  rfl

theorem PlanExecute.should_continue_cases (s : PlanExecute.State)
    (h : lastHasToolCalls s.messages = false) :
    PlanExecute.should_continue s =
      if s.current_step ≥ s.plan.length then "synthesize" else "execute" := by
  simp [PlanExecute.should_continue, h]

/-- Nodes of the compiled Plan-Execute graph after the planner has run. -/
inductive PENode
  | executor
  | toolsN
  | synthesizerN
deriving DecidableEq, Repr

/-- Bookkeeping for a Plan-Execute run: the state, the list of plan-step
indices at the step-executing executor invocations (those entered with
`current_step < len(plan)`; guard re-entries after a tool suspension of the
final step execute no plan step and are not recorded), the value of
`current_step` at the moment the synthesizer ran, and whether END was
reached. -/
structure PETrace where
  state : PlanExecute.State
  execSteps : List Nat
  csAtSynth : Option Nat
  done : Bool
deriving DecidableEq, Repr

/-- Fuel-bounded execution of the compiled Plan-Execute graph
(`create_plan_execute_agent`, source lines 292-310) from the executor node:
the conditional edge map
`{"execute": "executor", "tools": "tools", "synthesize": "synthesizer"}`
follows `should_continue`; `tools` returns to `executor` unconditionally and
`synthesizer` reaches END. `e i` is the oracle response to the executor call
made with `current_step = i`; `tm i` a tool-result message; `sr` the
synthesizer's response. -/
def peRun (e tm : Nat → Message) (sr : Message) : Nat → PENode → PETrace → PETrace
  | 0, _, t => t
  | fuel + 1, PENode.executor, t =>
    let s1 := PlanExecute.applyUpdate t.state
      (PlanExecute.executor_node (e t.state.current_step) t.state)
    let t1 : PETrace := { t with
      state := s1,
      execSteps := t.execSteps ++
        (if t.state.current_step < t.state.plan.length then [t.state.current_step] else []) }
    if PlanExecute.should_continue s1 = "tools" then peRun e tm sr fuel PENode.toolsN t1
    else if PlanExecute.should_continue s1 = "synthesize" then
      peRun e tm sr fuel PENode.synthesizerN t1
    else peRun e tm sr fuel PENode.executor t1
  | fuel + 1, PENode.toolsN, t =>
    peRun e tm sr fuel PENode.executor
      { t with
          state := PlanExecute.applyUpdate t.state { messages := some [tm t.state.current_step] } }
  | fuel + 1, PENode.synthesizerN, t =>
    { t with
        state := PlanExecute.applyUpdate t.state (PlanExecute.synthesizer_node sr t.state),
        csAtSynth := some t.state.current_step, done := true }

theorem peRun_exec_tools (e tm : Nat → Message) (sr : Message) (f : Nat) (t : PETrace)
    (h : PlanExecute.should_continue (PlanExecute.applyUpdate t.state
      (PlanExecute.executor_node (e t.state.current_step) t.state)) = "tools") :
    peRun e tm sr (f + 1) PENode.executor t =
      peRun e tm sr f PENode.toolsN
        { t with
            state := PlanExecute.applyUpdate t.state
              (PlanExecute.executor_node (e t.state.current_step) t.state),
            execSteps := t.execSteps ++
              (if t.state.current_step < t.state.plan.length then [t.state.current_step]
               else []) } := by
  simp only [peRun, h]
  simp

theorem peRun_exec_synthesize (e tm : Nat → Message) (sr : Message) (f : Nat) (t : PETrace)
    (h : PlanExecute.should_continue (PlanExecute.applyUpdate t.state
      (PlanExecute.executor_node (e t.state.current_step) t.state)) = "synthesize") :
    peRun e tm sr (f + 1) PENode.executor t =
      peRun e tm sr f PENode.synthesizerN
        { t with
            state := PlanExecute.applyUpdate t.state
              (PlanExecute.executor_node (e t.state.current_step) t.state),
            execSteps := t.execSteps ++
              (if t.state.current_step < t.state.plan.length then [t.state.current_step]
               else []) } := by
  simp only [peRun, h]
  simp

theorem peRun_exec_execute (e tm : Nat → Message) (sr : Message) (f : Nat) (t : PETrace)
    (h : PlanExecute.should_continue (PlanExecute.applyUpdate t.state
      (PlanExecute.executor_node (e t.state.current_step) t.state)) = "execute") :
    peRun e tm sr (f + 1) PENode.executor t =
      peRun e tm sr f PENode.executor
        { t with
            state := PlanExecute.applyUpdate t.state
              (PlanExecute.executor_node (e t.state.current_step) t.state),
            execSteps := t.execSteps ++
              (if t.state.current_step < t.state.plan.length then [t.state.current_step]
               else []) } := by
  simp only [peRun, h]
  simp

theorem peRun_tools_eq (e tm : Nat → Message) (sr : Message) (f : Nat) (t : PETrace) :
    peRun e tm sr (f + 1) PENode.toolsN t =
      peRun e tm sr f PENode.executor
        { t with
            state := PlanExecute.applyUpdate t.state
              { messages := some [tm t.state.current_step] } } := rfl

theorem peRun_synth_eq (e tm : Nat → Message) (sr : Message) (f : Nat) (t : PETrace) :
    peRun e tm sr (f + 1) PENode.synthesizerN t =
      { t with
          state := PlanExecute.applyUpdate t.state (PlanExecute.synthesizer_node sr t.state),
          csAtSynth := some t.state.current_step, done := true } := rfl

/-- Countdown invariant for Plan-Execute runs: entering the executor with
`n` plan steps left (`current_step + n = len(plan)`) and any pattern of
tool-calling executor responses, the run reaches the synthesizer having
executed exactly the step indices `current_step, ..., len(plan) - 1`, each
once and in order, with `current_step = len(plan)` recorded at synthesis. -/
theorem peRun_countdown (e tm : Nat → Message) (sr : Message) :
    ∀ (n : Nat) (t : PETrace) (fuel : Nat),
      t.state.current_step + n = t.state.plan.length →
      2 * n + 2 ≤ fuel →
      (peRun e tm sr fuel PENode.executor t).done = true ∧
      (peRun e tm sr fuel PENode.executor t).execSteps =
        t.execSteps ++ List.range' t.state.current_step n ∧
      (peRun e tm sr fuel PENode.executor t).csAtSynth = some t.state.plan.length := by
  intro n
  induction n with
  | zero =>
    intro t fuel hlen hfuel
    obtain ⟨f, rfl⟩ : ∃ f, fuel = f + 2 := ⟨fuel - 2, by omega⟩
    have hk : t.state.plan.length ≤ t.state.current_step := by omega
    have hguard := PlanExecute.applyUpdate_executor_guard (e t.state.current_step) t.state hk
    have hroute : PlanExecute.should_continue (PlanExecute.applyUpdate t.state
        (PlanExecute.executor_node (e t.state.current_step) t.state)) = "synthesize" := by
      rw [hguard, PlanExecute.should_continue_cases _
        (by simp [lastHasToolCalls_append, PlanExecute.allStepsCompletedMsg])]
      rw [if_pos (by dsimp only; omega)]
    rw [peRun_exec_synthesize e tm sr (f + 1) t hroute, peRun_synth_eq]
    refine ⟨rfl, ?_, ?_⟩
    · dsimp only
      rw [if_neg (by omega)]
      simp [List.range']
    · dsimp only
      rw [hguard]
      dsimp only
      have hcs : t.state.current_step = t.state.plan.length := by omega
      rw [hcs]
  | succ n ih =>
    intro t fuel hlen hfuel
    obtain ⟨f, rfl⟩ : ∃ f, fuel = f + 2 := ⟨fuel - 2, by omega⟩
    have hk : t.state.current_step < t.state.plan.length := by omega
    have hstep := PlanExecute.applyUpdate_executor_step (e t.state.current_step) t.state hk
    by_cases htc : (e t.state.current_step).tool_calls = []
    · by_cases hmore : t.state.current_step + 1 < t.state.plan.length
      · have hroute : PlanExecute.should_continue (PlanExecute.applyUpdate t.state
            (PlanExecute.executor_node (e t.state.current_step) t.state)) = "execute" := by
          rw [hstep, PlanExecute.should_continue_cases _
            (by simp [lastHasToolCalls_append, htc])]
          rw [if_neg (by dsimp only; omega)]
        rw [peRun_exec_execute e tm sr (f + 1) t hroute]
        obtain ⟨i1, i2, i3⟩ := ih
          { t with
              state := PlanExecute.applyUpdate t.state
                (PlanExecute.executor_node (e t.state.current_step) t.state),
              execSteps := t.execSteps ++
                (if t.state.current_step < t.state.plan.length then [t.state.current_step]
                 else []) }
          (f + 1)
          (by rw [hstep]; dsimp only; omega)
          (by omega)
        refine ⟨i1, ?_, ?_⟩
        · rw [i2]
          dsimp only
          rw [hstep]
          dsimp only
          rw [if_pos hk, List.append_assoc]
          rfl
        · rw [i3]
          dsimp only
          rw [hstep]
      · have hn : n = 0 := by omega
        subst hn
        have hroute : PlanExecute.should_continue (PlanExecute.applyUpdate t.state
            (PlanExecute.executor_node (e t.state.current_step) t.state)) = "synthesize" := by
          rw [hstep, PlanExecute.should_continue_cases _
            (by simp [lastHasToolCalls_append, htc])]
          rw [if_pos (by dsimp only; omega)]
        rw [peRun_exec_synthesize e tm sr (f + 1) t hroute, peRun_synth_eq]
        refine ⟨rfl, ?_, ?_⟩
        · dsimp only
          rw [if_pos hk]
          rfl
        · dsimp only
          rw [hstep]
          dsimp only
          have hcs : t.state.current_step + 1 = t.state.plan.length := by omega
          rw [hcs]
    · have hroute : PlanExecute.should_continue (PlanExecute.applyUpdate t.state
          (PlanExecute.executor_node (e t.state.current_step) t.state)) = "tools" := by
        rw [hstep]
        have hl : lastHasToolCalls (t.state.messages ++ [e t.state.current_step]) = true := by
          rw [lastHasToolCalls_append]
          simpa using htc
        simp [PlanExecute.should_continue, hl]
      rw [peRun_exec_tools e tm sr (f + 1) t hroute, peRun_tools_eq]
      obtain ⟨i1, i2, i3⟩ := ih
        { t with
            state := PlanExecute.applyUpdate
              (PlanExecute.applyUpdate t.state
                (PlanExecute.executor_node (e t.state.current_step) t.state))
              { messages := some [tm (PlanExecute.applyUpdate t.state
                  (PlanExecute.executor_node (e t.state.current_step) t.state)).current_step] },
            execSteps := t.execSteps ++
              (if t.state.current_step < t.state.plan.length then [t.state.current_step]
               else []) }
        f
        (by rw [hstep]; dsimp [PlanExecute.applyUpdate]; omega)
        (by omega)
      refine ⟨i1, ?_, ?_⟩
      · rw [i2]
        dsimp only
        rw [hstep]
        dsimp [PlanExecute.applyUpdate]
        rw [if_pos hk, List.append_assoc]
        rfl
      · rw [i3]
        dsimp only
        rw [hstep]
        dsimp [PlanExecute.applyUpdate]

/-- Full Plan-Execute run: START leads to the planner (whose oracle response
is `pr`), the planner's unconditional edge leads to the executor loop. -/
def peFullRun (pr : Message) (e tm : Nat → Message) (sr : Message) (fuel : Nat) : PETrace :=
  peRun e tm sr fuel PENode.executor
    { state := PlanExecute.applyUpdate PlanExecute.initialState
        (PlanExecute.planner_node pr PlanExecute.initialState),
      execSteps := [], csAtSynth := none, done := false }

/-- Claim C4. In every Plan-Execute run whose planner produces a 4-step plan
— whatever pattern of tool invocations the executor's responses request —
the executor performs exactly 4 step-executing invocations (`execSteps` lists
the executed plan-step indices; guard re-entries after a tool suspension of
the last step are the only other executor entries and execute no step)
before control routes to the synthesizer, and `current_step = 4` at the
moment the synthesizer runs. -/
theorem c4_plan_execute_four_steps (pr : Message) (e tm : Nat → Message) (sr : Message)
    (hplan : (parsePlan pr.content).length = 4) :
    (peFullRun pr e tm sr (2 * 4 + 2)).done = true ∧
    (peFullRun pr e tm sr (2 * 4 + 2)).execSteps = [0, 1, 2, 3] ∧
    (peFullRun pr e tm sr (2 * 4 + 2)).csAtSynth = some 4 := by
  obtain ⟨h1, h2, h3⟩ := peRun_countdown e tm sr 4
    { state := PlanExecute.applyUpdate PlanExecute.initialState
        (PlanExecute.planner_node pr PlanExecute.initialState),
      execSteps := [], csAtSynth := none, done := false }
    (2 * 4 + 2)
    (by
      dsimp [PlanExecute.applyUpdate, PlanExecute.planner_node, PlanExecute.initialState]
      omega)
    (by omega)
  refine ⟨h1, ?_, ?_⟩
  · rw [peFullRun, h2]
    dsimp [PlanExecute.applyUpdate, PlanExecute.planner_node, PlanExecute.initialState]
    rfl
  · rw [peFullRun, h3]
    dsimp [PlanExecute.applyUpdate, PlanExecute.planner_node, PlanExecute.initialState]
    rw [hplan]

/-- A planner response whose text parses to a 4-step plan. -/
def plannerFourSteps : Message :=
  { role := "assistant",
    content := "1. Get current stock price for AAPL\n2. Retrieve 30-day historical data\n3. Search vector DB for recent AAPL analysis\n4. Synthesize findings into recommendation",
    tool_calls := [] }

/-- A plain synthesizer response. -/
def synthResp : Message :=
  { role := "assistant", content := "Overall recommendation: hold.", tool_calls := [] }

/-- Witness for C4: the concrete 4-step planner response, with executor
responses that request a tool on every step (exercising the tool-suspension
re-entries). -/
theorem c4_plan_execute_four_steps_witness :
    (peFullRun plannerFourSteps alwaysToolCall toolResult synthResp (2 * 4 + 2)).done = true ∧
    (peFullRun plannerFourSteps alwaysToolCall toolResult synthResp
      (2 * 4 + 2)).execSteps = [0, 1, 2, 3] ∧
    (peFullRun plannerFourSteps alwaysToolCall toolResult synthResp
      (2 * 4 + 2)).csAtSynth = some 4 :=
  c4_plan_execute_four_steps plannerFourSteps alwaysToolCall toolResult synthResp (by decide)

/-- Claim C9. Every invocation of the executor node with
`current_step < len(plan)` returns an update dict setting `current_step` to
its old value plus one — the node is one function, so this covers re-entries
after tool execution just as first entries; consequently, in every
Plan-Execute run and for every pattern of tool-calling executor responses,
the executed step indices are exactly `0, ..., len(plan) - 1` in order, each
exactly once: a step whose execution issued tool requests is counted
complete when the requests are issued and is never re-executed after its
tool results return. -/
theorem c9_executor_increments_current_step :
    (∀ (resp : Message) (s : PlanExecute.State), s.current_step < s.plan.length →
      (PlanExecute.executor_node resp s).current_step = some (s.current_step + 1)) ∧
    (∀ (pr : Message) (e tm : Nat → Message) (sr : Message),
      (peFullRun pr e tm sr (2 * (parsePlan pr.content).length + 2)).execSteps =
        List.range (parsePlan pr.content).length) := by
  constructor
  · intro resp s h
    unfold PlanExecute.executor_node
    rw [if_neg (by omega)]
  · intro pr e tm sr
    obtain ⟨h1, h2, h3⟩ := peRun_countdown e tm sr (parsePlan pr.content).length
      { state := PlanExecute.applyUpdate PlanExecute.initialState
          (PlanExecute.planner_node pr PlanExecute.initialState),
        execSteps := [], csAtSynth := none, done := false }
      (2 * (parsePlan pr.content).length + 2)
      (by
        dsimp [PlanExecute.applyUpdate, PlanExecute.planner_node, PlanExecute.initialState]
        omega)
      (by omega)
    rw [peFullRun, h2]
    dsimp [PlanExecute.applyUpdate, PlanExecute.planner_node, PlanExecute.initialState]
    rw [List.range_eq_range']

/-- Witness for C9: the node-level increment at a concrete mid-plan state,
and the run-level exactly-once property with tool calls requested at every
step. -/
theorem c9_executor_increments_current_step_witness :
    (PlanExecute.executor_node (alwaysToolCall 0)
      { messages := [initialQuery], plan := ["1. a", "2. b"], completed_steps := [],
        current_step := 1, results := [] }).current_step = some (1 + 1) ∧
    (peFullRun plannerFourSteps alwaysToolCall toolResult synthResp
      (2 * (parsePlan plannerFourSteps.content).length + 2)).execSteps =
      List.range (parsePlan plannerFourSteps.content).length :=
  ⟨c9_executor_increments_current_step.1 (alwaysToolCall 0)
    { messages := [initialQuery], plan := ["1. a", "2. b"], completed_steps := [],
      current_step := 1, results := [] } (by decide),
   c9_executor_increments_current_step.2 plannerFourSteps alwaysToolCall toolResult synthResp⟩

namespace MultiAgent

/-- `MultiAgentState` (source lines 430-436): `messages` appends
(`operator.add`); `next_agent`, `completed_agents`, `findings` and
`confidence` replace. `findings` is an insertion-ordered dict, modelled as an
association list. -/
structure State where
  messages : List Message
  next_agent : String
  completed_agents : List String
  findings : List (String × String)
  confidence : ℚ
deriving DecidableEq, Repr

/-- An update dict returned by a multi-agent node; `none` = key absent. -/
structure Update where
  messages : Option (List Message) := none
  next_agent : Option String := none
  completed_agents : Option (List String) := none
  findings : Option (List (String × String)) := none
  confidence : Option ℚ := none
deriving DecidableEq, Repr

/-- The LangGraph reducer for `MultiAgentState`. -/
def applyUpdate (s : State) (p : Update) : State :=
  { messages := s.messages ++ p.messages.getD [],
    next_agent := p.next_agent.getD s.next_agent,
    completed_agents := p.completed_agents.getD s.completed_agents,
    findings := p.findings.getD s.findings,
    confidence := p.confidence.getD s.confidence }

/-- Python dict key assignment `d[k] = v` on an insertion-ordered dict
modelled as an association list: overwrite in place when the key is present,
append otherwise. -/
def setKey (fs : List (String × String)) (k v : String) : List (String × String) :=
  if fs.any (fun q => q.1 == k) then
    fs.map (fun q => if q.1 == k then (k, v) else q)
  else fs ++ [(k, v)]

/-- The supervisor's closed set of selectable specialists (source lines
475-476). -/
def valid_agents : List String :=
  ["data_collector", "technical_analyst", "research_analyst", "risk_assessor", "synthesizer"]

/-- `supervisor_node` (source lines 445-480): calls the plain `llm`, takes
`response.content.strip().lower()` as the selection, corrects an invalid
selection to `"data_collector"`, and returns
`{"next_agent": next_agent, "messages": [response]}`. The first component of
the result is the input-state object as it stands after the node body ran
(the supervisor mutates nothing). -/
def supervisor_node (resp : Message) (s : State) : State × Update :=
  let selected := String.mk ((charTrim resp.content.toList).map Char.toLower)
  let next_agent := if selected ∈ valid_agents then selected else "data_collector"
  (s, { next_agent := some next_agent, messages := some [resp] })

/-- `data_collector_node` (source lines 482-501). In the source,
`completed = state.get("completed_agents", [])` aliases the state's own list
and `completed.append("data_collector")` mutates it in place (likewise
`findings["data_collection"] = ...` mutates the state's dict); the first
component of the result is the input-state object after those in-place
mutations, the second the returned update dict (which aliases the mutated
objects). -/
def data_collector_node (resp : Message) (s : State) : State × Update :=
  let completed := s.completed_agents ++ ["data_collector"]
  let findings := setKey s.findings "data_collection" "Stock data gathered"
  ({ s with completed_agents := completed, findings := findings },
   { messages := some [resp], completed_agents := some completed, findings := some findings })

/-- `technical_analyst_node` (source lines 503-522), same in-place mutation
pattern as `data_collector_node`. -/
def technical_analyst_node (resp : Message) (s : State) : State × Update :=
  let completed := s.completed_agents ++ ["technical_analyst"]
  let findings := setKey s.findings "technical_analysis" "Pattern analysis complete"
  ({ s with completed_agents := completed, findings := findings },
   { messages := some [resp], completed_agents := some completed, findings := some findings })

/-- `research_analyst_node` (source lines 524-543), same mutation pattern. -/
def research_analyst_node (resp : Message) (s : State) : State × Update :=
  let completed := s.completed_agents ++ ["research_analyst"]
  let findings := setKey s.findings "research" "Market context analyzed"
  ({ s with completed_agents := completed, findings := findings },
   { messages := some [resp], completed_agents := some completed, findings := some findings })

/-- `risk_assessor_node` (source lines 545-567), same mutation pattern; the
mock confidence value drawn from `np.random.uniform` is the explicit
argument `conf`. -/
def risk_assessor_node (resp : Message) (conf : ℚ) (s : State) : State × Update :=
  let completed := s.completed_agents ++ ["risk_assessor"]
  let findings := setKey s.findings "risk_assessment" "Risks evaluated"
  ({ s with completed_agents := completed, findings := findings },
   { messages := some [resp], completed_agents := some completed, findings := some findings,
     confidence := some conf })

/-- `synthesizer_node` (source lines 569-591): appends `"synthesizer"` to the
aliased completed list (no findings entry) and returns
`{"messages": [response], "completed_agents": completed}`. -/
def synthesizer_node (resp : Message) (s : State) : State × Update :=
  let completed := s.completed_agents ++ ["synthesizer"]
  ({ s with completed_agents := completed },
   { messages := some [resp], completed_agents := some completed })

/-- `route_to_agent` (source lines 593-606): pending tool calls route to
`"tools"`; once `"synthesizer"` is in `completed_agents` the decision is
`"end"`; otherwise the router returns `state["next_agent"]` (defaulting to
`"supervisor"` when absent — in this typed model the field is always
present). -/
def route_to_agent (s : State) : String :=
  if lastHasToolCalls s.messages then "tools"
  else if "synthesizer" ∈ s.completed_agents then "end"
  else s.next_agent

/-- Initial multi-agent state used by the demo driver. -/
def initialState : State :=
  { messages := [initialQuery], next_agent := "supervisor", completed_agents := [],
    findings := [], confidence := 0 }

end MultiAgent

/-- Nodes of the compiled multi-agent graph. -/
inductive MANode
  | supervisor
  | data_collector
  | technical_analyst
  | research_analyst
  | risk_assessor
  | synthesizer
  | toolsN
deriving DecidableEq, Repr

/-- The five specialist nodes. -/
def specialistNodes : List MANode :=
  [MANode.data_collector, MANode.technical_analyst, MANode.research_analyst,
   MANode.risk_assessor, MANode.synthesizer]

/-- Which nodes call the plain `llm` (no tools bound), so that their oracle
responses can never carry tool-invocation requests: the supervisor,
`technical_analyst`, `risk_assessor` and `synthesizer`; `data_collector` and
`research_analyst` call `llm_with_tools`. Tool-result messages (`toolsN`)
also never carry tool calls. -/
def llmPlain : MANode → Bool
  | MANode.data_collector => false
  | MANode.research_analyst => false
  | _ => true

/-- Dispatch of the specialist node bodies. -/
def runSpecialist : MANode → Message → ℚ → MultiAgent.State → MultiAgent.State × MultiAgent.Update
  | MANode.data_collector, r, _, s => MultiAgent.data_collector_node r s
  | MANode.technical_analyst, r, _, s => MultiAgent.technical_analyst_node r s
  | MANode.research_analyst, r, _, s => MultiAgent.research_analyst_node r s
  | MANode.risk_assessor, r, conf, s => MultiAgent.risk_assessor_node r conf s
  | MANode.synthesizer, r, _, s => MultiAgent.synthesizer_node r s
  | _, _, _, s => (s, {})

/-- State after the supervisor node runs and its update is applied by the
reducer. -/
def postSupervisor (resp : Message) (s : MultiAgent.State) : MultiAgent.State :=
  MultiAgent.applyUpdate (MultiAgent.supervisor_node resp s).1 (MultiAgent.supervisor_node resp s).2

/-- State after a specialist node runs and its update is applied by the
reducer. -/
def postSpecialist (x : MANode) (resp : Message) (conf : ℚ) (s : MultiAgent.State) :
    MultiAgent.State :=
  MultiAgent.applyUpdate (runSpecialist x resp conf s).1 (runSpecialist x resp conf s).2

/-- Resolution of a conditional-edge router value through its declared
destination map: a graph node, END, or — for a value the map does not
declare — an invalid route (LangGraph raises at runtime). -/
inductive RouteTarget
  | node (n : MANode)
  | terminal
  | invalid
deriving DecidableEq, Repr

/-- The supervisor's declared conditional-edge map (source lines 619-631). -/
def supMap (r : String) : RouteTarget :=
  if r = "data_collector" then RouteTarget.node MANode.data_collector
  else if r = "technical_analyst" then RouteTarget.node MANode.technical_analyst
  else if r = "research_analyst" then RouteTarget.node MANode.research_analyst
  else if r = "risk_assessor" then RouteTarget.node MANode.risk_assessor
  else if r = "synthesizer" then RouteTarget.node MANode.synthesizer
  else if r = "tools" then RouteTarget.node MANode.toolsN
  else if r = "end" then RouteTarget.terminal
  else RouteTarget.invalid

/-- Each specialist's declared conditional-edge map (source lines 633-644):
only `"supervisor"`, `"tools"` and `"end"` are declared. -/
def specMap (r : String) : RouteTarget :=
  if r = "supervisor" then RouteTarget.node MANode.supervisor
  else if r = "tools" then RouteTarget.node MANode.toolsN
  else if r = "end" then RouteTarget.terminal
  else RouteTarget.invalid

/-- Reachable configurations of the compiled multi-agent graph
(`create_multi_agent_system`, source lines 608-649): `Reach n s` holds when
node `n` is about to run with state `s`, for some sequence of oracle
responses respecting the boundary contract (`llm.invoke` responses and
tool-result messages carry no tool calls; `llm_with_tools.invoke` responses
may). Routing follows `route_to_agent` through the declared edge maps; the
tools node returns to the supervisor unconditionally (source line 646). -/
inductive Reach : MANode → MultiAgent.State → Prop where
  | init : Reach MANode.supervisor MultiAgent.initialState
  | fromSupervisor (s : MultiAgent.State) (resp : Message) (n' : MANode)
      (h : Reach MANode.supervisor s) (hplain : resp.tool_calls = [])
      (hmap : supMap (MultiAgent.route_to_agent (postSupervisor resp s)) =
        RouteTarget.node n') :
      Reach n' (postSupervisor resp s)
  | fromSpecialist (x : MANode) (s : MultiAgent.State) (resp : Message) (conf : ℚ)
      (n' : MANode)
      (h : Reach x s) (hx : x ∈ specialistNodes)
      (hplain : llmPlain x = true → resp.tool_calls = [])
      (hmap : specMap (MultiAgent.route_to_agent (postSpecialist x resp conf s)) =
        RouteTarget.node n') :
      Reach n' (postSpecialist x resp conf s)
  | fromTools (s : MultiAgent.State) (ms : List Message)
      (h : Reach MANode.toolsN s) (hplain : ∀ m ∈ ms, m.tool_calls = []) :
      Reach MANode.supervisor (MultiAgent.applyUpdate s { messages := some ms })

/-- The node-name string each specialist appends to `completed_agents`. -/
def agentName : MANode → String
  | MANode.supervisor => "supervisor"
  | MANode.data_collector => "data_collector"
  | MANode.technical_analyst => "technical_analyst"
  | MANode.research_analyst => "research_analyst"
  | MANode.risk_assessor => "risk_assessor"
  | MANode.synthesizer => "synthesizer"
  | MANode.toolsN => "tools"

theorem postSupervisor_completed (r : Message) (s : MultiAgent.State) :
    (postSupervisor r s).completed_agents = s.completed_agents := rfl

theorem postSpecialist_completed (x : MANode) (hx : x ∈ specialistNodes) (r : Message)
    (conf : ℚ) (s : MultiAgent.State) :
    (postSpecialist x r conf s).completed_agents = s.completed_agents ++ [agentName x] := by
  fin_cases hx <;> rfl

/-- Invariant: in every reachable pre-run configuration, the synthesizer is
not yet recorded as completed (the decision right after it completes is
`"end"`, so no further node runs). -/
theorem reach_no_synthesizer (n : MANode) (s : MultiAgent.State) (h : Reach n s) :
    "synthesizer" ∉ s.completed_agents := by
  induction h with
  | init => simp [MultiAgent.initialState]
  | fromSupervisor s resp n' h hplain hmap ih =>
    rw [postSupervisor_completed]
    exact ih
  | fromSpecialist x s resp conf n' h hx hplain hmap ih =>
    by_cases hxs : x = MANode.synthesizer
    · subst hxs
      exfalso
      have hroute : MultiAgent.route_to_agent
          (postSpecialist MANode.synthesizer resp conf s) = "end" := by
        have hmsg : (postSpecialist MANode.synthesizer resp conf s).messages =
          s.messages ++ [resp] := rfl
        have hcomp : (postSpecialist MANode.synthesizer resp conf s).completed_agents =
          s.completed_agents ++ ["synthesizer"] := rfl
        unfold MultiAgent.route_to_agent
        rw [hmsg, hcomp, lastHasToolCalls_append, hplain rfl]
        simp
      rw [hroute] at hmap
      simp [specMap] at hmap
    · rw [postSpecialist_completed x hx]
      have hname : agentName x ≠ "synthesizer" := by
        fin_cases hx <;> simp_all [agentName]
      simp [List.mem_append, ih]
      exact fun hcontra => hname hcontra.symm
  | fromTools s ms h hplain ih =>
    have hc : (MultiAgent.applyUpdate s { messages := some ms }).completed_agents =
      s.completed_agents := rfl
    rw [hc]
    exact ih

/-- State after node `x` runs (its oracle response `resp`, and for the risk
assessor the mock confidence draw `conf`) and the reducer applies its
update. -/
def postNode : MANode → Message → ℚ → MultiAgent.State → MultiAgent.State
  | MANode.supervisor, r, _, s => postSupervisor r s
  | MANode.toolsN, r, _, s => MultiAgent.applyUpdate s { messages := some [r] }
  | x, r, conf, s => postSpecialist x r conf s

/-- Claim C5. For every reachable routing decision taken in a state whose
`completed_agents` contains `"synthesizer"`, the decision is termination
(`"end"`) — even though `next_agent` may still name a different specialist,
the router's synthesizer check fires before `next_agent` is consulted. -/
theorem c5_synthesizer_completion_terminates (x : MANode) (s : MultiAgent.State)
    (resp : Message) (conf : ℚ) (hreach : Reach x s)
    (hplain : llmPlain x = true → resp.tool_calls = [])
    (hsynth : "synthesizer" ∈ (postNode x resp conf s).completed_agents) :
    MultiAgent.route_to_agent (postNode x resp conf s) = "end" := by
  have hni := reach_no_synthesizer x s hreach
  cases x with
  | supervisor => exact absurd hsynth hni
  | toolsN => exact absurd hsynth hni
  | data_collector =>
    exfalso
    have hm : "synthesizer" ∈ s.completed_agents ++ ["data_collector"] := hsynth
    simp [List.mem_append] at hm
    exact hni hm
  | technical_analyst =>
    exfalso
    have hm : "synthesizer" ∈ s.completed_agents ++ ["technical_analyst"] := hsynth
    simp [List.mem_append] at hm
    exact hni hm
  | research_analyst =>
    exfalso
    have hm : "synthesizer" ∈ s.completed_agents ++ ["research_analyst"] := hsynth
    simp [List.mem_append] at hm
    exact hni hm
  | risk_assessor =>
    exfalso
    have hm : "synthesizer" ∈ s.completed_agents ++ ["risk_assessor"] := hsynth
    simp [List.mem_append] at hm
    exact hni hm
  | synthesizer =>
    have hmsg : (postNode MANode.synthesizer resp conf s).messages =
      s.messages ++ [resp] := rfl
    have hcomp : (postNode MANode.synthesizer resp conf s).completed_agents =
      s.completed_agents ++ ["synthesizer"] := rfl
    unfold MultiAgent.route_to_agent
    rw [hmsg, hcomp, lastHasToolCalls_append, hplain rfl]
    simp

/-- A supervisor response selecting the synthesizer. -/
def supervisorPicksSynthesizer : Message :=
  { role := "assistant", content := "synthesizer", tool_calls := [] }

/-- A plain synthesizer response. -/
def synthesizerAnswer : Message :=
  { role := "assistant", content := "Final recommendation: hold.", tool_calls := [] }

/-- Witness for C5 along a concrete reachable trace: the supervisor selects
the synthesizer, the synthesizer runs, and the routing decision taken in the
resulting state (whose completed set now contains `"synthesizer"`) is
`"end"`. -/
theorem c5_synthesizer_completion_terminates_witness :
    MultiAgent.route_to_agent (postNode MANode.synthesizer synthesizerAnswer 0
      (postSupervisor supervisorPicksSynthesizer MultiAgent.initialState)) = "end" :=
  c5_synthesizer_completion_terminates MANode.synthesizer
    (postSupervisor supervisorPicksSynthesizer MultiAgent.initialState)
    synthesizerAnswer 0
    (Reach.fromSupervisor MultiAgent.initialState supervisorPicksSynthesizer MANode.synthesizer
      Reach.init rfl (by decide))
    (fun _ => rfl)
    (by decide)

/-- A supervisor response selecting the data collector. -/
def supervisorPicksDataCollector : Message :=
  { role := "assistant", content := "data_collector", tool_calls := [] }

/-- A plain data-collector response. -/
def dataCollectorAnswer : Message :=
  { role := "assistant", content := "Collected AAPL price and history.", tool_calls := [] }

/-- The reachable state right after the data collector has run (supervisor
selected it from the demo initial state; its response is plain). -/
def c1State : MultiAgent.State :=
  postSpecialist MANode.data_collector dataCollectorAnswer 0
    (postSupervisor supervisorPicksDataCollector MultiAgent.initialState)

/-- Claim C1, code-bug evidence. The claim — matching the source's own
comment "All specialist agents return to supervisor" at line 633 and the
specialists' declared edge maps — says the routing function applied after a
specialist (here: the data collector, reachably, with no pending tool call
and the synthesizer not completed) returns `"supervisor"`. In fact
`route_to_agent` falls through to the stale `next_agent` field, which still
names the specialist itself: it returns `"data_collector"`, a value the
specialist's declared edge map `{"supervisor", "tools", "end"}` does not
contain, so LangGraph raises instead of returning control to the
supervisor. -/
theorem c1_specialist_route_does_not_return_to_supervisor :
    Reach MANode.data_collector
      (postSupervisor supervisorPicksDataCollector MultiAgent.initialState) ∧
    lastHasToolCalls c1State.messages = false ∧
    "synthesizer" ∉ c1State.completed_agents ∧
    MultiAgent.route_to_agent c1State = "data_collector" ∧
    MultiAgent.route_to_agent c1State ≠ "supervisor" ∧
    specMap (MultiAgent.route_to_agent c1State) = RouteTarget.invalid :=
  ⟨Reach.fromSupervisor MultiAgent.initialState supervisorPicksDataCollector
      MANode.data_collector Reach.init rfl (by decide),
   by decide, by decide, by decide, by decide, by decide⟩

/-- Claim C7, counterexample. The claim says specialist nodes do not mutate
the `completed_agents` list or `findings` mapping of the input state. In the
source, `completed = state.get("completed_agents", [])` aliases the state's
own list and `completed.append(...)` mutates it in place (likewise the
`findings` dict assignment): after invoking the data collector on the demo
initial state, the input-state object differs from the original — its
completed list has gained `"data_collector"` and its findings dict the
`"data_collection"` entry. -/
theorem c7_counterexample :
    (MultiAgent.data_collector_node dataCollectorAnswer MultiAgent.initialState).1 ≠
      MultiAgent.initialState ∧
    (MultiAgent.data_collector_node dataCollectorAnswer
      MultiAgent.initialState).1.completed_agents = ["data_collector"] ∧
    MultiAgent.initialState.completed_agents = [] ∧
    (MultiAgent.data_collector_node dataCollectorAnswer
      MultiAgent.initialState).1.findings = [("data_collection", "Stock data gathered")] ∧
    MultiAgent.initialState.findings = [] :=
  ⟨by decide, by decide, by decide, by decide, by decide⟩

/-- Claim C7, amended. Applying a returned update through the reducer is a
pure function of the state and the update — in particular an empty update
leaves the state unchanged — and each node's update names only
reducer-declared fields (enforced by the `Update` record type); the
supervisor node leaves its input state unmodified; but each specialist node
of the Supervisor pattern mutates the input state in place before returning:
it appends its own name to the input's `completed_agents` list and (except
the synthesizer) adds its findings entry to the input's `findings` mapping;
moreover the returned update aliases the mutated objects: its
`completed_agents` (and, where named, `findings`) entries are exactly the
post-mutation input state's lists. -/
theorem c7_specialist_mutation_amended (resp : Message) (conf : ℚ) (s : MultiAgent.State) :
    MultiAgent.applyUpdate s {} = s ∧
    (MultiAgent.supervisor_node resp s).1 = s ∧
    (MultiAgent.data_collector_node resp s).1 =
      { s with
          completed_agents := s.completed_agents ++ ["data_collector"],
          findings := MultiAgent.setKey s.findings "data_collection" "Stock data gathered" } ∧
    (MultiAgent.technical_analyst_node resp s).1 =
      { s with
          completed_agents := s.completed_agents ++ ["technical_analyst"],
          findings := MultiAgent.setKey s.findings "technical_analysis"
            "Pattern analysis complete" } ∧
    (MultiAgent.research_analyst_node resp s).1 =
      { s with
          completed_agents := s.completed_agents ++ ["research_analyst"],
          findings := MultiAgent.setKey s.findings "research" "Market context analyzed" } ∧
    (MultiAgent.risk_assessor_node resp conf s).1 =
      { s with
          completed_agents := s.completed_agents ++ ["risk_assessor"],
          findings := MultiAgent.setKey s.findings "risk_assessment" "Risks evaluated" } ∧
    (MultiAgent.synthesizer_node resp s).1 =
      { s with completed_agents := s.completed_agents ++ ["synthesizer"] } ∧
    (MultiAgent.data_collector_node resp s).2.completed_agents =
      some (MultiAgent.data_collector_node resp s).1.completed_agents ∧
    (MultiAgent.data_collector_node resp s).2.findings =
      some (MultiAgent.data_collector_node resp s).1.findings ∧
    (MultiAgent.technical_analyst_node resp s).2.completed_agents =
      some (MultiAgent.technical_analyst_node resp s).1.completed_agents ∧
    (MultiAgent.technical_analyst_node resp s).2.findings =
      some (MultiAgent.technical_analyst_node resp s).1.findings ∧
    (MultiAgent.research_analyst_node resp s).2.completed_agents =
      some (MultiAgent.research_analyst_node resp s).1.completed_agents ∧
    (MultiAgent.research_analyst_node resp s).2.findings =
      some (MultiAgent.research_analyst_node resp s).1.findings ∧
    (MultiAgent.risk_assessor_node resp conf s).2.completed_agents =
      some (MultiAgent.risk_assessor_node resp conf s).1.completed_agents ∧
    (MultiAgent.risk_assessor_node resp conf s).2.findings =
      some (MultiAgent.risk_assessor_node resp conf s).1.findings ∧
    (MultiAgent.synthesizer_node resp s).2.completed_agents =
      some (MultiAgent.synthesizer_node resp s).1.completed_agents := by
  refine ⟨?_, rfl, rfl, rfl, rfl, rfl, rfl, rfl, rfl, rfl, rfl, rfl, rfl, rfl, rfl, rfl⟩
  simp [MultiAgent.applyUpdate]
